import Mathlib

/-!
Verification of the effect-log structured-logging library.

The repository ships only its test suite, examples and packaging; the core
package `effect_log` (modules `logger`, `writers`, `middleware`) is not
present. Every definition below is therefore modelled from the
specification's description of those modules, cross-checked against how
the test suite calls them.
-/

set_option autoImplicit false

/-- Modelled from the spec: `LogLevel`, a totally ordered enumeration
TRACE < DEBUG < INFO < WARN < ERROR < FATAL (module `effect_log`). -/
inductive LogLevel where
  | trace
  | debug
  | info
  | warn
  | error
  | fatal
deriving DecidableEq

/-- Numeric rank giving the total order on levels. -/
def LogLevel.toNat : LogLevel → Nat
  | .trace => 0
  | .debug => 1
  | .info => 2
  | .warn => 3
  | .error => 4
  | .fatal => 5

instance : LT LogLevel := ⟨fun a b => a.toNat < b.toNat⟩

instance : LE LogLevel := ⟨fun a b => a.toNat ≤ b.toNat⟩

instance (a b : LogLevel) : Decidable (a < b) :=
  inferInstanceAs (Decidable (a.toNat < b.toNat))

instance (a b : LogLevel) : Decidable (a ≤ b) :=
  inferInstanceAs (Decidable (a.toNat ≤ b.toNat))

/-- Values stored in a context mapping (Python values are dynamically
typed; the claims only involve strings, integers and header maps). -/
inductive Value where
  | str : String → Value
  | nat : Nat → Value
  | strMap : List (String × String) → Value
deriving DecidableEq

/-- First-match lookup in an association list keyed by strings. -/
def lookupData (d : List (String × Value)) (k : String) : Option Value :=
  match d with
  | [] => none
  | (k1, v) :: rest => if k1 = k then some v else lookupData rest k

/-- Whether a key is bound in the mapping. -/
def containsKey (d : List (String × Value)) (k : String) : Bool :=
  (lookupData d k).isSome

/-- Python-dict insertion: replace the value in place if the key exists,
otherwise append the new binding at the end. -/
def insertData (d : List (String × Value)) (k : String) (v : Value) :
    List (String × Value) :=
  match d with
  | [] => [(k, v)]
  | (k1, v1) :: rest =>
    if k1 = k then (k1, v) :: rest else (k1, v1) :: insertData rest k v

/-- Modelled from the spec: dict merge `{**old, **new}` — the union of
the two maps, with `new`'s bindings winning on key conflict. -/
def mergeData (old new : List (String × Value)) : List (String × Value) :=
  new.foldl (fun acc p => insertData acc p.1 p.2) old

/-- Modelled from the spec: `Context` — immutable accumulator of
key/value pairs plus optional span/trace identifiers. -/
structure Context where
  data : List (String × Value) := []
  span_id : Option String := none
  trace_id : Option String := none
deriving DecidableEq

/-- Modelled from the spec: `Context.merge` — new Context whose data is
old data ∪ extra (extra wins on conflict); span/trace unchanged. -/
def Context.merge (c : Context) (extra : List (String × Value)) : Context :=
  { c with data := mergeData c.data extra }

/-- Modelled from the spec: `Context.with_span(span_id, trace_id=None)` —
span id replaced; trace id replaced only when a non-absent value is
supplied, otherwise retained. -/
def Context.with_span (c : Context) (s : String) (t : Option String) : Context :=
  { c with
    span_id := some s
    trace_id := match t with
      | some x => some x
      | none => c.trace_id }

/-- Modelled from the spec: `LogEntry` — immutable record of one log
event. Timestamps are abstract instants (`Nat`). -/
structure LogEntry where
  timestamp : Nat
  level : LogLevel
  message : String
  context : List (String × Value) := []
  span_id : Option String := none
  trace_id : Option String := none
deriving DecidableEq

/-- Writer capability references held by a Logger. The default Logger
holds a console writer; any other writer instance is identified
abstractly. -/
inductive LogWriter where
  | console : LogWriter
  | custom : Nat → LogWriter
deriving DecidableEq

/-- Modelled from the spec: `Logger` — immutable value pairing a Context,
an inclusive minimum severity threshold (default INFO) and a Writer
(default a console writer). -/
structure Logger where
  context : Context := {}
  min_level : LogLevel := .info
  writer : LogWriter := .console
deriving DecidableEq

/-- `Logger()` with no arguments: all fields defaulted. -/
def Logger.mkDefault : Logger := {}

/-- Modelled from the spec: the Logger emission core `_log`. If the
entry level is below the threshold, return with no side effect (no entry
constructed, writer never invoked, modelled as `none`); otherwise
construct the entry (timestamp = now, context = accumulated data merged
with call-site fields, call-site fields winning; span/trace copied from
the Logger's context) and hand it to the writer (modelled as `some`). -/
def Logger.log (l : Logger) (lvl : LogLevel) (msg : String)
    (fields : List (String × Value)) (now : Nat) : Option LogEntry :=
  if lvl < l.min_level then none
  else some
    { timestamp := now
      level := lvl
      message := msg
      context := mergeData l.context.data fields
      span_id := l.context.span_id
      trace_id := l.context.trace_id }

/-- Emission method `trace`. -/
def Logger.trace (l : Logger) (msg : String) (fields : List (String × Value))
    (now : Nat) : Option LogEntry :=
  l.log .trace msg fields now

/-- Emission method `debug`. -/
def Logger.debug (l : Logger) (msg : String) (fields : List (String × Value))
    (now : Nat) : Option LogEntry :=
  l.log .debug msg fields now

/-- Emission method `info`. -/
def Logger.info (l : Logger) (msg : String) (fields : List (String × Value))
    (now : Nat) : Option LogEntry :=
  l.log .info msg fields now

/-- Emission method `warn`. -/
def Logger.warn (l : Logger) (msg : String) (fields : List (String × Value))
    (now : Nat) : Option LogEntry :=
  l.log .warn msg fields now

/-- Emission method `error`. -/
def Logger.error (l : Logger) (msg : String) (fields : List (String × Value))
    (now : Nat) : Option LogEntry :=
  l.log .error msg fields now

/-- Emission method `fatal`. -/
def Logger.fatal (l : Logger) (msg : String) (fields : List (String × Value))
    (now : Nat) : Option LogEntry :=
  l.log .fatal msg fields now

/-- Number of `writer.write` invocations an emission performs. -/
def writeCount (o : Option LogEntry) : Nat :=
  o.toList.length

/-- Modelled from the spec: `Logger.with_context(**fields)` — new Logger
whose context is `self.context.merge(fields)`. -/
def Logger.with_context (l : Logger) (fields : List (String × Value)) : Logger :=
  { l with context := l.context.merge fields }

/-- Modelled from the spec: `Logger.with_span(span_id, trace_id=None)` —
new Logger whose context is `self.context.with_span(...)`. -/
def Logger.with_span (l : Logger) (s : String) (t : Option String) : Logger :=
  { l with context := l.context.with_span s t }

/-- Modelled from the spec: `Logger.with_min_level(level)` — new Logger
with the threshold replaced. -/
def Logger.with_min_level (l : Logger) (lvl : LogLevel) : Logger :=
  { l with min_level := lvl }

/-- Modelled from the spec: `Logger.with_writer(writer)` — new Logger
with the writer replaced. -/
def Logger.with_writer (l : Logger) (w : LogWriter) : Logger :=
  { l with writer := w }

/-- One of the four Logger transformation methods, with its arguments. -/
inductive LoggerOp where
  | withContextOp (fields : List (String × Value))
  | withSpanOp (s : String) (t : Option String)
  | withMinLevelOp (lvl : LogLevel)
  | withWriterOp (w : LogWriter)

/-- The value computed by a transformation method for the new Logger. -/
def applyOp (l : Logger) : LoggerOp → Logger
  | .withContextOp fields => l.with_context fields
  | .withSpanOp s t => l.with_span s t
  | .withMinLevelOp lvl => l.with_min_level lvl
  | .withWriterOp w => l.with_writer w

/-- Modelled from the spec: object identity for Logger values. Each
transformation method allocates a fresh Python object and never assigns
to the receiver; a store of allocated Logger objects makes that
observable. A reference is an index into the store; applying a
transformation to a live reference appends the transformed value as a
new object and returns its (fresh) reference, leaving every existing
object untouched. -/
def applyOpAlloc (store : List Logger) (r : Nat) (op : LoggerOp) :
    List Logger × Nat :=
  match store[r]? with
  | some l => (store ++ [applyOp l op], store.length)
  | none => (store, r)

/-- Modelled from the spec: `BufferedWriter` — wraps one child writer and
a capacity; its mutable state is the ordered sequence of pending
entries. The child writer is represented by the entries delivered to it. -/
structure BufferedWriter where
  buffer_size : Nat
  buffer : List LogEntry := []
deriving DecidableEq

/-- Modelled from the spec: `BufferedWriter.write` — append the entry to
the buffer; once the count reaches the capacity, deliver all buffered
entries to the child in original arrival order and clear the buffer.
Returns the new state and the entries delivered to the child (one
child `write` call per entry). -/
def BufferedWriter.write (w : BufferedWriter) (e : LogEntry) :
    BufferedWriter × List LogEntry :=
  let buf := w.buffer ++ [e]
  if w.buffer_size ≤ buf.length then ({ w with buffer := [] }, buf)
  else ({ w with buffer := buf }, [])

/-- Modelled from the spec: `BufferedWriter.flush` — force delivery of
whatever is currently buffered, in arrival order, and clear the buffer. -/
def BufferedWriter.flush (w : BufferedWriter) : BufferedWriter × List LogEntry :=
  ({ w with buffer := [] }, w.buffer)

/-- Feed a sequence of entries through a BufferedWriter, collecting every
delivery made to the child in order. -/
def BufferedWriter.writeAll (w : BufferedWriter) (es : List LogEntry) :
    BufferedWriter × List LogEntry :=
  match es with
  | [] => (w, [])
  | e :: rest =>
    let step := w.write e
    let next := step.1.writeAll rest
    (next.1, step.2 ++ next.2)

/-- A child writer of a MultiWriter: identified by name, recording the
entries passed to its `write`, and raising on the entries its `fails`
predicate selects. -/
structure ChildWriter where
  name : String
  fails : LogEntry → Bool
  received : List LogEntry := []

/-- One `write` call on a child: the entry is recorded as received, and
an error is raised when the child fails on it. -/
def ChildWriter.write (c : ChildWriter) (e : LogEntry) :
    ChildWriter × Option String :=
  ({ c with received := c.received ++ [e] },
   if c.fails e then some c.name else none)

/-- Modelled from the spec: `MultiWriter.write` — invoke each child's
`write` in registration order with the same entry; a failure in one
child does not prevent invocation of subsequent children; after
attempting all children the collected failures are surfaced as an
aggregate (a nonempty error list). -/
def MultiWriter.write (cs : List ChildWriter) (e : LogEntry) :
    List ChildWriter × List String :=
  match cs with
  | [] => ([], [])
  | c :: rest =>
    let step := c.write e
    let next := MultiWriter.write rest e
    (step.1 :: next.1,
     (match step.2 with
      | some m => [m]
      | none => []) ++ next.2)

/-- A request body as seen by the middleware: either text (a decodable
payload) or undecodable binary bytes. -/
inductive BodyVal where
  | txt : String → BodyVal
  | bin : BodyVal
deriving DecidableEq

/-- Modelled from the spec: the middleware's body field computation —
undecodable content becomes the literal sentinel, text at most
`max_body_size` characters long is kept verbatim, longer text is
truncated to the first `max_body_size` characters followed by an
ellipsis marker. Total: decoding failure is represented, never raised. -/
def processBody (b : BodyVal) (maxSize : Nat) : String :=
  match b with
  | .bin => "<binary data>"
  | .txt s => if s.length ≤ maxSize then s else s.take maxSize ++ "..."

/-- Duck-typed request object, fields already defaulted per the
middleware contract (method → "UNKNOWN", path → "/", headers → empty,
body → empty). -/
structure Request where
  method : String := "UNKNOWN"
  path : String := "/"
  headers : List (String × String) := []
  body : BodyVal := .txt ""

/-- Duck-typed response object. -/
structure Response where
  status_code : Nat

/-- Modelled from the spec: `HttpLoggerMiddleware` configuration. -/
structure MiddlewareConfig where
  include_headers : Bool := false
  include_body : Bool := false
  max_body_size : Nat := 1000
  exclude_paths : List String := []
  log_requests : Bool := true
  log_responses : Bool := true

/-- Modelled from the spec: the mapping returned by a middleware call,
with keys `logger`, `request_id`, `start_time`. -/
structure MiddlewareResult where
  logger : Logger
  request_id : String
  start_time : Nat

/-- Modelled from the spec: status-code bracket to emission level —
2xx/3xx → INFO, 4xx → WARN, 5xx → ERROR. -/
def statusToLevel (status : Nat) : LogLevel :=
  if 500 ≤ status then .error
  else if 400 ≤ status then .warn
  else .info

/-- Character-list test that `pat` leads `s` (string prefixes modelled on
the underlying character lists, which evaluate structurally). -/
def startsWithChars : List Char → List Char → Bool
  | [], _ => true
  | _ :: _, [] => false
  | a :: ps, b :: ss => a == b && startsWithChars ps ss

/-- Whether the request path matches the configured exclusion set (path
prefixes / exact matches). -/
def pathExcluded (cfg : MiddlewareConfig) (path : String) : Bool :=
  cfg.exclude_paths.any (fun p => startsWithChars p.data path.data)

/-- The fields the middleware binds into the request-scoped Logger:
request id, method, path, and optionally headers and the processed body. -/
def requestFields (cfg : MiddlewareConfig) (req : Request) (reqId : String) :
    List (String × Value) :=
  [("request_id", Value.str reqId),
   ("http_method", Value.str req.method),
   ("http_path", Value.str req.path)]
  ++ (if cfg.include_headers then [("headers", Value.strMap req.headers)] else [])
  ++ (if cfg.include_body then
        [("body", Value.str (processBody req.body cfg.max_body_size))]
      else [])

/-- The writer calls made for the request phase: none when the path is
excluded or request logging is disabled, otherwise the "HTTP request"
emission at INFO through the request-scoped Logger. -/
def requestEntries (cfg : MiddlewareConfig) (reqLogger : Logger)
    (path : String) (now : Nat) : List LogEntry :=
  if cfg.log_requests && !pathExcluded cfg path then
    (reqLogger.info "HTTP request" [] now).toList
  else []

/-- The writer calls made for the response phase: when a response is
supplied and response logging is enabled, emit "HTTP response" at the
status-bracket level with `http_status` and `duration_ms`. -/
def responseEntries (cfg : MiddlewareConfig) (reqLogger : Logger)
    (resp : Option Response) (startTime now : Nat) : List LogEntry :=
  match resp with
  | none => []
  | some r =>
    if cfg.log_responses then
      (reqLogger.log (statusToLevel r.status_code) "HTTP response"
        [("http_status", Value.nat r.status_code),
         ("duration_ms", Value.nat (now - startTime))] now).toList
    else []

/-- Modelled from the spec: `HttpLoggerMiddleware.__call__` — build the
request-scoped Logger from the base Logger and the request fields, emit
the request entry unless the path is excluded or request logging is
disabled, emit the response entry when a response is supplied and
response logging is enabled, and return the logger / request id /
start time mapping together with the sequence of writer calls made.
Fresh request-id generation and clock reads are inputs of the model. -/
def HttpLoggerMiddleware.call (cfg : MiddlewareConfig) (base : Logger)
    (req : Request) (resp : Option Response) (reqId : String)
    (startTime now : Nat) : MiddlewareResult × List LogEntry :=
  let reqLogger := base.with_context (requestFields cfg req reqId)
  ({ logger := reqLogger, request_id := reqId, start_time := startTime },
   requestEntries cfg reqLogger req.path now
     ++ responseEntries cfg reqLogger resp startTime now)

theorem LogLevel.not_lt_of_le {a b : LogLevel} (h : a ≤ b) : ¬ b < a :=
  Nat.not_lt.mpr h

theorem lookupData_insertData (d : List (String × Value)) (k k1 : String)
    (v : Value) :
    lookupData (insertData d k v) k1 =
      if k = k1 then some v else lookupData d k1 := by
  induction d with
  | nil => simp [insertData, lookupData]
  | cons p rest ih =>
    obtain ⟨a, b⟩ := p
    by_cases hak : a = k
    · subst hak
      by_cases hk1 : a = k1 <;>
        simp [insertData, lookupData, hk1]
    · by_cases hk1 : a = k1
      · subst hk1
        have : ¬ k = a := fun h => hak h.symm
        simp [insertData, lookupData, hak, this]
      · simp [insertData, lookupData, hak, hk1, ih]

theorem lookupData_eq_none_of_not_mem (d : List (String × Value)) (k : String)
    (h : k ∉ d.map Prod.fst) : lookupData d k = none := by
  induction d with
  | nil => rfl
  | cons p rest ih =>
    obtain ⟨a, b⟩ := p
    simp only [List.map_cons, List.mem_cons] at h
    push_neg at h
    have ha : ¬ a = k := fun hh => h.1 hh.symm
    simp [lookupData, ha, ih h.2]

theorem lookupData_mergeData (new : List (String × Value))
    (old : List (String × Value)) (k : String)
    (h : (new.map Prod.fst).Nodup) :
    lookupData (mergeData old new) k =
      match lookupData new k with
      | some v => some v
      | none => lookupData old k := by
  induction new generalizing old with
  | nil => rfl
  | cons p rest ih =>
    obtain ⟨k0, v0⟩ := p
    simp only [List.map_cons, List.nodup_cons] at h
    have hstep : mergeData old ((k0, v0) :: rest) =
        mergeData (insertData old k0 v0) rest := rfl
    rw [hstep, ih _ h.2]
    by_cases hk : k0 = k
    · subst hk
      have hrest : lookupData rest k0 = none :=
        lookupData_eq_none_of_not_mem rest k0 h.1
      simp [lookupData, hrest, lookupData_insertData]
    · simp [lookupData, hk, lookupData_insertData]

/-- C1: for every Logger with threshold `m`, an emission whose level is
strictly below `m` performs no writer call and constructs no entry;
an emission at or above `m` performs exactly one writer call and the
written entry's level equals the level of the method called. The six
level-specific methods are the emission core applied at their level. -/
theorem logger_threshold_gating (l : Logger) (msg : String)
    (fields : List (String × Value)) (now : Nat) :
    (∀ lvl, lvl < l.min_level →
      l.log lvl msg fields now = none ∧
      writeCount (l.log lvl msg fields now) = 0) ∧
    (∀ lvl, l.min_level ≤ lvl →
      ∃ e, l.log lvl msg fields now = some e ∧ e.level = lvl ∧
        writeCount (l.log lvl msg fields now) = 1) ∧
    l.trace msg fields now = l.log .trace msg fields now ∧
    l.debug msg fields now = l.log .debug msg fields now ∧
    l.info msg fields now = l.log .info msg fields now ∧
    l.warn msg fields now = l.log .warn msg fields now ∧
    l.error msg fields now = l.log .error msg fields now ∧
    l.fatal msg fields now = l.log .fatal msg fields now := by
  refine ⟨?_, ?_, rfl, rfl, rfl, rfl, rfl, rfl⟩
  · intro lvl h
    simp [Logger.log, if_pos h, writeCount]
  · intro lvl h
    have hn := LogLevel.not_lt_of_le h
    refine ⟨{ timestamp := now, level := lvl, message := msg,
              context := mergeData l.context.data fields,
              span_id := l.context.span_id, trace_id := l.context.trace_id },
        ?_, rfl, ?_⟩ <;>
      simp [Logger.log, if_neg hn, writeCount]

/-- Witness for C1 at a Logger with threshold WARN: `info` is suppressed,
`error` is written once with level ERROR. -/
theorem logger_threshold_gating_witness :
    ((LogLevel.info < ({ min_level := .warn } : Logger).min_level) ∧
      ({ min_level := .warn } : Logger).log .info "m" [] 0 = none) ∧
    (({ min_level := .warn } : Logger).min_level ≤ .error ∧
      ∃ e, ({ min_level := .warn } : Logger).log .error "m" [] 0 = some e ∧
        e.level = .error ∧
        writeCount (({ min_level := .warn } : Logger).log .error "m" [] 0) = 1) := by
  constructor
  · exact ⟨by decide,
      ((logger_threshold_gating { min_level := .warn } "m" [] 0).1 .info
        (by decide)).1⟩
  · exact ⟨by decide,
      (logger_threshold_gating { min_level := .warn } "m" [] 0).2.1 .error
        (by decide)⟩

/-- C10: `Logger()` defaults: threshold INFO, empty context data, a
non-absent (console) writer; trace and debug are suppressed by default
while info, warn, error and fatal are written. -/
theorem default_logger_spec :
    Logger.mkDefault.min_level = .info ∧
    Logger.mkDefault.context.data = [] ∧
    Logger.mkDefault.writer = .console ∧
    ∀ msg fields now,
      Logger.mkDefault.trace msg fields now = none ∧
      Logger.mkDefault.debug msg fields now = none ∧
      (Logger.mkDefault.info msg fields now).isSome = true ∧
      (Logger.mkDefault.warn msg fields now).isSome = true ∧
      (Logger.mkDefault.error msg fields now).isSome = true ∧
      (Logger.mkDefault.fatal msg fields now).isSome = true := by
  refine ⟨rfl, rfl, rfl, fun msg fields now => ⟨rfl, rfl, rfl, rfl, rfl, rfl⟩⟩

/-- C5: an admitted emission's entry context is the Logger's accumulated
context data merged with the call-site fields, and on every key the
call-site binding wins when present while the accumulated binding is
used otherwise. -/
theorem log_call_site_fields_win (l : Logger) (lvl : LogLevel) (msg : String)
    (fields : List (String × Value)) (now : Nat)
    (hnodup : (fields.map Prod.fst).Nodup)
    (hlvl : l.min_level ≤ lvl) :
    ∃ e, l.log lvl msg fields now = some e ∧
      e.context = mergeData l.context.data fields ∧
      (∀ k v, lookupData fields k = some v → lookupData e.context k = some v) ∧
      (∀ k, lookupData fields k = none →
        lookupData e.context k = lookupData l.context.data k) := by
  have hn := LogLevel.not_lt_of_le hlvl
  refine ⟨{ timestamp := now, level := lvl, message := msg,
            context := mergeData l.context.data fields,
            span_id := l.context.span_id, trace_id := l.context.trace_id },
      by simp [Logger.log, if_neg hn], rfl, ?_, ?_⟩
  · intro k v hv
    rw [lookupData_mergeData fields l.context.data k hnodup, hv]
  · intro k hv
    rw [lookupData_mergeData fields l.context.data k hnodup, hv]

/-- Witness for C5: context `service="api"`, call-site `service="override"`;
the entry shows the call-site value. -/
theorem log_call_site_fields_win_witness :
    ((([("service", Value.str "override")].map Prod.fst).Nodup) ∧
      (({ context := { data := [("service", Value.str "api")] } } : Logger).min_level
        ≤ .info) ∧
      ∃ e, ({ context := { data := [("service", Value.str "api")] } } : Logger).log
          .info "test" [("service", Value.str "override")] 0 = some e ∧
        lookupData e.context "service" = some (Value.str "override")) := by
  refine ⟨by decide, by decide, ?_⟩
  obtain ⟨e, he, _, hwin, _⟩ :=
    log_call_site_fields_win
      { context := { data := [("service", Value.str "api")] } } .info "test"
      [("service", Value.str "override")] 0 (by decide) (by decide)
  exact ⟨e, he, hwin "service" (Value.str "override") (by decide)⟩

/-- C6: `with_span` on a Context (and on a Logger) sets the span id to
the supplied value; the trace id is replaced when a non-absent value is
supplied and retained when the argument is absent. -/
theorem with_span_spec (c : Context) (l : Logger) (s : String)
    (t : Option String) :
    (c.with_span s t).span_id = some s ∧
    (l.with_span s t).context = l.context.with_span s t ∧
    (l.with_span s t).context.span_id = some s ∧
    (∀ x, t = some x → (c.with_span s t).trace_id = some x ∧
      (l.with_span s t).context.trace_id = some x) ∧
    (t = none → (c.with_span s t).trace_id = c.trace_id ∧
      (l.with_span s t).context.trace_id = l.context.trace_id) := by
  refine ⟨rfl, rfl, rfl, ?_, ?_⟩
  · intro x hx
    subst hx
    exact ⟨rfl, rfl⟩
  · intro hx
    subst hx
    exact ⟨rfl, rfl⟩

/-- Witness for C6 at span "span-123": with trace "trace-456" supplied
the trace id is replaced; with the argument absent it is retained. -/
theorem with_span_spec_witness :
    ((({ trace_id := some "t0" } : Context).with_span "span-123"
        (some "trace-456")).trace_id = some "trace-456") ∧
    ((({ trace_id := some "t0" } : Context).with_span "span-123" none).trace_id
      = some "t0") ∧
    ((({} : Logger).with_span "span-123" (some "trace-456")).context.span_id
      = some "span-123") := by
  refine ⟨?_, ?_, ?_⟩
  · exact ((with_span_spec { trace_id := some "t0" } {} "span-123"
      (some "trace-456")).2.2.2.1 "trace-456" rfl).1
  · exact ((with_span_spec { trace_id := some "t0" } {} "span-123"
      none).2.2.2.2 rfl).1
  · exact (with_span_spec { trace_id := some "t0" } {} "span-123"
      (some "trace-456")).2.2.1

/-- C2: applying any of the four transformation methods to a live Logger
reference allocates a fresh object: the returned reference is distinct
from the receiver's, the receiver's stored object (its context data,
span/trace ids, threshold and writer) is unchanged, and the fresh object
holds the transformed value. -/
theorem transformation_returns_fresh_logger (store : List Logger) (r : Nat)
    (op : LoggerOp) (hr : r < store.length) :
    (applyOpAlloc store r op).2 ≠ r ∧
    (applyOpAlloc store r op).1[r]? = store[r]? ∧
    ∃ l, store[r]? = some l ∧
      (applyOpAlloc store r op).1[(applyOpAlloc store r op).2]? =
        some (applyOp l op) := by
  have hget : store[r]? = some store[r] := List.getElem?_eq_getElem hr
  have hdef : applyOpAlloc store r op =
      (store ++ [applyOp store[r] op], store.length) := by
    unfold applyOpAlloc
    rw [hget]
  rw [hdef]
  refine ⟨Nat.ne_of_gt hr, ?_, store[r], hget, ?_⟩
  · exact List.getElem?_append_left hr
  · exact List.getElem?_concat_length _ _

/-- Witness for C2: a store holding one default Logger; `with_context`
returns reference 1 ≠ 0 and leaves object 0 as it was. -/
theorem transformation_returns_fresh_logger_witness :
    0 < [Logger.mkDefault].length ∧
    (applyOpAlloc [Logger.mkDefault] 0
        (.withContextOp [("key", Value.str "value")])).2 ≠ 0 ∧
    (applyOpAlloc [Logger.mkDefault] 0
        (.withContextOp [("key", Value.str "value")])).1[0]? =
      some Logger.mkDefault := by
  have h := transformation_returns_fresh_logger [Logger.mkDefault] 0
    (.withContextOp [("key", Value.str "value")]) (by decide)
  exact ⟨by decide, h.1, by rw [h.2.1]; rfl⟩

theorem BufferedWriter.write_out_buffer (w : BufferedWriter) (e : LogEntry) :
    (w.write e).2 ++ (w.write e).1.buffer = w.buffer ++ [e] := by
  by_cases h : w.buffer_size ≤ w.buffer.length + 1 <;>
    simp [BufferedWriter.write, h]

theorem BufferedWriter.writeAll_flush (w : BufferedWriter) (es : List LogEntry) :
    (w.writeAll es).2 ++ (w.writeAll es).1.buffer = w.buffer ++ es := by
  induction es generalizing w with
  | nil => simp [BufferedWriter.writeAll]
  | cons e rest ih =>
    calc (w.writeAll (e :: rest)).2 ++ (w.writeAll (e :: rest)).1.buffer
        = (w.write e).2 ++ (((w.write e).1.writeAll rest).2 ++
            ((w.write e).1.writeAll rest).1.buffer) := by
          simp [BufferedWriter.writeAll, List.append_assoc]
      _ = (w.write e).2 ++ ((w.write e).1.buffer ++ rest) := by rw [ih]
      _ = ((w.write e).2 ++ (w.write e).1.buffer) ++ rest := by
          rw [List.append_assoc]
      _ = (w.buffer ++ [e]) ++ rest := by
          rw [BufferedWriter.write_out_buffer]
      _ = w.buffer ++ (e :: rest) := by simp

/-- C3: a write that leaves the count below the capacity delivers nothing
to the child and appends the entry; the write that makes the count reach
the capacity delivers all buffered entries in original arrival order
(one child call per entry) and empties the buffer; `flush` delivers
exactly the currently buffered entries and empties the buffer; and over
any write sequence followed by a flush, the child receives exactly the
arrival sequence — nothing reordered or dropped. -/
theorem buffered_writer_spec (w : BufferedWriter) (e : LogEntry) :
    (w.buffer.length + 1 < w.buffer_size →
      (w.write e).2 = [] ∧ (w.write e).1.buffer = w.buffer ++ [e]) ∧
    (w.buffer.length + 1 = w.buffer_size →
      (w.write e).2 = w.buffer ++ [e] ∧ (w.write e).1.buffer = []) ∧
    w.flush.2 = w.buffer ∧
    w.flush.1.buffer = [] ∧
    (∀ es, (w.writeAll es).2 ++ ((w.writeAll es).1.flush).2 = w.buffer ++ es) := by
  refine ⟨?_, ?_, rfl, rfl, fun es => BufferedWriter.writeAll_flush w es⟩
  · intro h
    have hn : ¬ w.buffer_size ≤ w.buffer.length + 1 := by omega
    constructor <;> simp [BufferedWriter.write, hn]
  · intro h
    have hp : w.buffer_size ≤ w.buffer.length + 1 := by omega
    constructor <;> simp [BufferedWriter.write, hp]

/-- Witness for C3, capacity 2 and capacity 10 as in the test suite:
first write buffers silently, second delivers both in order, manual
flush of one buffered entry makes exactly one child call. -/
theorem buffered_writer_spec_witness :
    (({ buffer_size := 2 } : BufferedWriter).write
        { timestamp := 0, level := .info, message := "first" }).2 = [] ∧
    (({ buffer_size := 2,
        buffer := [{ timestamp := 0, level := .info, message := "first" }] } :
        BufferedWriter).write
        { timestamp := 1, level := .info, message := "second" }).2 =
      [{ timestamp := 0, level := .info, message := "first" },
       { timestamp := 1, level := .info, message := "second" }] ∧
    ({ buffer_size := 10,
       buffer := [{ timestamp := 0, level := .info, message := "m" }] } :
       BufferedWriter).flush.2 =
      [{ timestamp := 0, level := .info, message := "m" }] := by
  refine ⟨?_, ?_, ?_⟩
  · exact ((buffered_writer_spec { buffer_size := 2 }
      { timestamp := 0, level := .info, message := "first" }).1 (by decide)).1
  · simpa using ((buffered_writer_spec
      { buffer_size := 2,
        buffer := [{ timestamp := 0, level := .info, message := "first" }] }
      { timestamp := 1, level := .info, message := "second" }).2.1
      (by decide)).1
  · exact (buffered_writer_spec
      { buffer_size := 10,
        buffer := [{ timestamp := 0, level := .info, message := "m" }] }
      { timestamp := 0, level := .info, message := "m" }).2.2.1

theorem MultiWriter.write_fst (cs : List ChildWriter) (e : LogEntry) :
    (MultiWriter.write cs e).1 =
      cs.map (fun c => { c with received := c.received ++ [e] }) := by
  induction cs with
  | nil => rfl
  | cons c rest ih => simp [MultiWriter.write, ChildWriter.write, ih]

theorem MultiWriter.write_snd (cs : List ChildWriter) (e : LogEntry) :
    (MultiWriter.write cs e).2 =
      (cs.filter (fun c => c.fails e)).map ChildWriter.name := by
  induction cs with
  | nil => rfl
  | cons c rest ih =>
    by_cases h : c.fails e <;>
      simp [MultiWriter.write, ChildWriter.write, h, ih, List.filter_cons]

/-- C4: `MultiWriter.write` hands the same entry to every child in
registration order — each child records exactly one new `write` call
with that entry, regardless of which siblings fail — and the surfaced
aggregate collects exactly the failing children's errors, being empty
precisely when no child failed. -/
theorem multi_writer_spec (cs : List ChildWriter) (e : LogEntry) :
    (MultiWriter.write cs e).1 =
      cs.map (fun c => { c with received := c.received ++ [e] }) ∧
    (MultiWriter.write cs e).2 =
      (cs.filter (fun c => c.fails e)).map ChildWriter.name ∧
    ((MultiWriter.write cs e).2 = [] ↔ ∀ c ∈ cs, c.fails e = false) := by
  refine ⟨MultiWriter.write_fst cs e, MultiWriter.write_snd cs e, ?_⟩
  rw [MultiWriter.write_snd cs e]
  simp [List.map_eq_nil_iff, List.filter_eq_nil_iff]

/-- Witness for C4: a failing first child and a healthy second child;
both receive the entry, and the aggregate holds just the first child's
error. -/
theorem multi_writer_spec_witness :
    (MultiWriter.write
        [{ name := "a", fails := fun _ => true },
         { name := "b", fails := fun _ => false }]
        { timestamp := 0, level := .info, message := "m" }).1 =
      [{ name := "a", fails := fun _ => true,
         received := [{ timestamp := 0, level := .info, message := "m" }] },
       { name := "b", fails := fun _ => false,
         received := [{ timestamp := 0, level := .info, message := "m" }] }] ∧
    (MultiWriter.write
        [{ name := "a", fails := fun _ => true },
         { name := "b", fails := fun _ => false }]
        { timestamp := 0, level := .info, message := "m" }).2 = ["a"] := by
  have h := multi_writer_spec
    [{ name := "a", fails := fun _ => true },
     { name := "b", fails := fun _ => false }]
    { timestamp := 0, level := .info, message := "m" }
  exact ⟨by simpa using h.1, by simpa using h.2.1⟩

/-- C7: the middleware's body field is computed totally — an undecodable
body yields the literal sentinel, short text is kept verbatim, long text
is truncated to the first `max_body_size` characters plus an ellipsis
marker (exactly "This is a ..." for the test body at size 10) — and with
body logging enabled the request fields bind the processed body. -/
theorem body_processing_spec (b : BodyVal) (maxSize : Nat) :
    (b = .bin → processBody b maxSize = "<binary data>") ∧
    (∀ s, b = .txt s → s.length ≤ maxSize → processBody b maxSize = s) ∧
    (∀ s, b = .txt s → maxSize < s.length →
      processBody b maxSize = s.take maxSize ++ "...") ∧
    processBody (.txt "This is a very long body that should be truncated") 10 =
      "This is a ..." ∧
    (∀ (cfg : MiddlewareConfig) (req : Request) (reqId : String),
      cfg.include_body = true →
      lookupData (requestFields cfg req reqId) "body" =
        some (.str (processBody req.body cfg.max_body_size))) := by
  refine ⟨?_, ?_, ?_, ?_, ?_⟩
  · intro hb
    subst hb
    rfl
  · intro s hb hle
    subst hb
    simp [processBody, hle]
  · intro s hb hgt
    subst hb
    have hle : ¬ s.length ≤ maxSize := Nat.not_le.mpr hgt
    simp [processBody, hle]
  · decide
  · intro cfg req reqId hbody
    cases hh : cfg.include_headers <;>
      simp [requestFields, hbody, hh, lookupData]

/-- Witness for C7: the sentinel for a binary body, the verbatim case,
and the exact truncation literal at size 10. -/
theorem body_processing_spec_witness :
    processBody .bin 10 = "<binary data>" ∧
    (("short".length ≤ 10) ∧ processBody (.txt "short") 10 = "short") ∧
    ((10 <
        ("This is a very long body that should be truncated" : String).length) ∧
      processBody (.txt "This is a very long body that should be truncated") 10 =
        "This is a ...") := by
  refine ⟨?_, ⟨by decide, ?_⟩, ⟨by decide, ?_⟩⟩
  · exact (body_processing_spec .bin 10).1 rfl
  · exact (body_processing_spec (.txt "short") 10).2.1 "short" rfl (by decide)
  · exact (body_processing_spec
      (.txt "This is a very long body that should be truncated") 10).2.2.2.1

/-- C8: a request whose path matches the exclusion set produces zero
writer calls and in particular no "HTTP request" entry, while the call
still returns the derived request-scoped logger, the request id and the
start time; a non-excluded request (with request logging on and an
admitting threshold) produces exactly the one "HTTP request" entry. -/
theorem excluded_path_spec (cfg : MiddlewareConfig) (base : Logger)
    (req : Request) (reqId : String) (st now : Nat) :
    (pathExcluded cfg req.path = true →
      (HttpLoggerMiddleware.call cfg base req none reqId st now).2 = [] ∧
      ∀ resp, ((HttpLoggerMiddleware.call cfg base req resp reqId st now).2.filter
          (fun e => e.message == "HTTP request")) = []) ∧
    (pathExcluded cfg req.path = false → cfg.log_requests = true →
      base.min_level ≤ .info →
      ∃ e, (HttpLoggerMiddleware.call cfg base req none reqId st now).2 = [e] ∧
        e.message = "HTTP request") ∧
    (HttpLoggerMiddleware.call cfg base req none reqId st now).1.logger =
      base.with_context (requestFields cfg req reqId) ∧
    (HttpLoggerMiddleware.call cfg base req none reqId st now).1.request_id =
      reqId ∧
    (HttpLoggerMiddleware.call cfg base req none reqId st now).1.start_time =
      st := by
  refine ⟨?_, ?_, rfl, rfl, rfl⟩
  · intro hexcl
    constructor
    · simp [HttpLoggerMiddleware.call, requestEntries, responseEntries, hexcl]
    · intro resp
      have hreq : requestEntries cfg
          (base.with_context (requestFields cfg req reqId)) req.path now = [] := by
        simp [requestEntries, hexcl]
      cases resp with
      | none =>
        simp [HttpLoggerMiddleware.call, responseEntries, hreq]
      | some r =>
        by_cases hlr : cfg.log_responses = true
        · by_cases hg : statusToLevel r.status_code <
              (base.with_context (requestFields cfg req reqId)).min_level
          · simp [HttpLoggerMiddleware.call, responseEntries, hreq, hlr,
              Logger.log, if_pos hg]
          · simp [HttpLoggerMiddleware.call, responseEntries, hreq, hlr,
              Logger.log, if_neg hg]
        · simp [HttpLoggerMiddleware.call, responseEntries, hreq, hlr]
  · intro hexcl hlog hmin
    have hn := LogLevel.not_lt_of_le hmin
    refine ⟨{ timestamp := now
              level := .info
              message := "HTTP request"
              context := mergeData
                (base.with_context (requestFields cfg req reqId)).context.data []
              span_id :=
                (base.with_context (requestFields cfg req reqId)).context.span_id
              trace_id :=
                (base.with_context (requestFields cfg req reqId)).context.trace_id },
      ?_, rfl⟩
    simp [HttpLoggerMiddleware.call, requestEntries, responseEntries, hexcl,
      hlog, Logger.info, Logger.log, Logger.with_context, if_neg hn]

/-- Witness for C8: exclusion set ["/health"]; a request to /health is
not logged but the mapping still carries the id and start time; a
request to /api/users is logged once. -/
theorem excluded_path_spec_witness :
    (pathExcluded { exclude_paths := ["/health"] } "/health" = true ∧
      (HttpLoggerMiddleware.call { exclude_paths := ["/health"] } {}
          { path := "/health" } none "rid" 5 7).2 = [] ∧
      (HttpLoggerMiddleware.call { exclude_paths := ["/health"] } {}
          { path := "/health" } none "rid" 5 7).1.request_id = "rid" ∧
      (HttpLoggerMiddleware.call { exclude_paths := ["/health"] } {}
          { path := "/health" } none "rid" 5 7).1.start_time = 5) ∧
    (pathExcluded { exclude_paths := ["/health"] } "/api/users" = false ∧
      ({} : Logger).min_level ≤ .info ∧
      ∃ e, (HttpLoggerMiddleware.call { exclude_paths := ["/health"] } {}
          { path := "/api/users" } none "rid" 5 7).2 = [e] ∧
        e.message = "HTTP request") := by
  constructor
  · have h := excluded_path_spec { exclude_paths := ["/health"] } {}
      { path := "/health" } "rid" 5 7
    exact ⟨by decide, (h.1 (by decide)).1, h.2.2.2.1, h.2.2.2.2⟩
  · have h := excluded_path_spec { exclude_paths := ["/health"] } {}
      { path := "/api/users" } "rid" 5 7
    exact ⟨by decide, by decide, h.2.1 (by decide) rfl (by decide)⟩

/-- C9: the level of the emitted "HTTP response" entry is determined by
the status-code bracket alone — 2xx/3xx log at INFO, 4xx at WARN,
5xx at ERROR — and the middleware call with a response and response
logging enabled emits exactly one such entry at that level. -/
theorem response_status_level_spec (cfg : MiddlewareConfig) (base : Logger)
    (req : Request) (r : Response) (reqId : String) (st now : Nat) :
    (cfg.log_responses = true →
      base.min_level ≤ statusToLevel r.status_code →
      ∃ e, ((HttpLoggerMiddleware.call cfg base req (some r) reqId st
            now).2.filter (fun x => x.message == "HTTP response")) = [e] ∧
        e.level = statusToLevel r.status_code ∧
        e.message = "HTTP response") ∧
    (∀ code, 200 ≤ code → code ≤ 399 → statusToLevel code = .info) ∧
    (∀ code, 400 ≤ code → code ≤ 499 → statusToLevel code = .warn) ∧
    (∀ code, 500 ≤ code → statusToLevel code = .error) := by
  refine ⟨?_, ?_, ?_, ?_⟩
  · intro hlr hmin
    have hn := LogLevel.not_lt_of_le hmin
    have hreqfilter : ((requestEntries cfg
        (base.with_context (requestFields cfg req reqId)) req.path now).filter
          (fun x => x.message == "HTTP response")) = [] := by
      by_cases hq : cfg.log_requests && !pathExcluded cfg req.path
      · by_cases hg : LogLevel.info <
            (base.with_context (requestFields cfg req reqId)).min_level
        · simp [requestEntries, hq, Logger.info, Logger.log, if_pos hg]
        · simp [requestEntries, hq, Logger.info, Logger.log, if_neg hg]
      · simp [requestEntries, hq]
    refine ⟨{ timestamp := now
              level := statusToLevel r.status_code
              message := "HTTP response"
              context := mergeData
                (base.with_context (requestFields cfg req reqId)).context.data
                [("http_status", Value.nat r.status_code),
                 ("duration_ms", Value.nat (now - st))]
              span_id :=
                (base.with_context (requestFields cfg req reqId)).context.span_id
              trace_id :=
                (base.with_context (requestFields cfg req reqId)).context.trace_id },
      ?_, rfl, rfl⟩
    have hn2 : ¬ statusToLevel r.status_code <
        (base.with_context (requestFields cfg req reqId)).min_level := hn
    simp [HttpLoggerMiddleware.call, List.filter_append, hreqfilter,
      responseEntries, hlr, Logger.log, if_neg hn2]
  · intro code h1 h2
    unfold statusToLevel
    rw [if_neg (by omega), if_neg (by omega)]
  · intro code h1 h2
    unfold statusToLevel
    rw [if_neg (by omega), if_pos (by omega)]
  · intro code h1
    unfold statusToLevel
    rw [if_pos (by omega)]

/-- Witness for C9 at one representative code per bracket, and a full
middleware call at status 503 emitting the response entry at ERROR. -/
theorem response_status_level_spec_witness :
    statusToLevel 200 = .info ∧ statusToLevel 301 = .info ∧
    statusToLevel 404 = .warn ∧ statusToLevel 503 = .error ∧
    (({} : MiddlewareConfig).log_responses = true ∧
      ({} : Logger).min_level ≤ statusToLevel 503 ∧
      ∃ e, ((HttpLoggerMiddleware.call {} {} {} (some { status_code := 503 })
          "rid" 5 7).2.filter (fun x => x.message == "HTTP response")) = [e] ∧
        e.level = statusToLevel 503 ∧ e.message = "HTTP response") := by
  have h := response_status_level_spec {} {} {} { status_code := 503 } "rid" 5 7
  refine ⟨?_, ?_, ?_, ?_, rfl, by decide, h.1 rfl (by decide)⟩
  · exact h.2.1 200 (by decide) (by decide)
  · exact h.2.1 301 (by decide) (by decide)
  · exact h.2.2.1 404 (by decide) (by decide)
  · exact h.2.2.2 503 (by decide)
